import Mathlib

/-!
Verification of the go_chat_2 repository's core chat server against its
natural-language specification.

The Go source is shallowly embedded: pure helpers become Lean functions,
each actor's channel-handling code becomes an explicit state-passing
function, and the wire codec is modelled over an inductive JSON value
type (one JSON object per logical message; parsing of raw bytes into the
JSON tree is outside the embedding, so "bytes up to key ordering" is
rendered as JSON values up to recursive reordering of object fields).
Go `uuid.UUID` identifiers are modelled as their canonical string form.
Go maps used as sets (`map[*Client]bool`, `map[*Room]bool`) are modelled
as duplicate-free lists of identifiers; pointer identity of clients and
rooms is modelled by their unique id strings.
-/

namespace GoChat

/-- A JSON value, the unit the wire codec operates on.  Object fields keep
their wire order, so "equality up to key ordering" is a nontrivial relation. -/
inductive Json where
  | null : Json
  | bool : Bool → Json
  | num : Int → Json
  | str : String → Json
  | arr : List Json → Json
  | obj : List (String × Json) → Json

/-- Action-tag constant from `message.go`: `SendMessageAction = "send-message"`. -/
def SendMessageAction : String := "send-message"

/-- Action-tag constant from `message.go`: `JoinRoomAction = "join-room"`. -/
def JoinRoomAction : String := "join-room"

/-- Action-tag constant from `message.go`: `LeaveRoomAction = "leave-room"`. -/
def LeaveRoomAction : String := "leave-room"

/-- Action-tag constant from `message.go`: `JoinRoomPrivateAction = "join-room-private"`. -/
def JoinRoomPrivateAction : String := "join-room-private"

/-- Action-tag constant from `message.go`: `RoomJoinedAction = "room-joined"`. -/
def RoomJoinedAction : String := "room-joined"

/-- The identity data of a `Client` (client.go): exported fields
`Name string` and `ID uuid.UUID`, in struct order.  The unexported fields
(`conn`, `wsServer`, `send`, `rooms`) live in the actor state, not here. -/
structure GClient where
  name : String
  id : String
deriving DecidableEq

/-- `Client.GetId` (client.go): returns `client.ID.String()`. -/
def GClient.GetId (c : GClient) : String := c.id

/-- `Client.GetName` (client.go): returns `client.Name`. -/
def GClient.GetName (c : GClient) : String := c.name

/-- The `Room` struct (room.go): exported fields `ID uuid.UUID`,
`Name string`, `Private bool` (json tags `id`, `name`, `private`) and the
unexported membership set `clients map[*Client]bool`, modelled as a
duplicate-free list of client ids.  The room's channels are modelled by
the operations below rather than stored. -/
structure Room where
  id : String
  name : String
  priv : Bool
  clients : List String
deriving DecidableEq

/-- The `Message` struct (message.go): `Action`, `Message`, `Target *Room`
(nil pointer = `none`), `Sender models.User` (concretely a `*Client`,
nil interface = `none`). -/
structure Message where
  action : String
  message : String
  target : Option Room
  sender : Option GClient
deriving DecidableEq

/-- `Message.encode` (message.go): `json.Marshal` of the struct.  Field
order follows the Go struct; `*Room` marshals its exported fields
`id`, `name`, `private`; a `*Client` sender marshals `name`, `id`;
nil pointer / nil interface marshal to JSON null. -/
def Message.encode (m : Message) : Json :=
  Json.obj
    [("action", Json.str m.action),
     ("message", Json.str m.message),
     ("target",
       match m.target with
       | none => Json.null
       | some t => Json.obj [("id", Json.str t.id), ("name", Json.str t.name),
                             ("private", Json.bool t.priv)]),
     ("sender",
       match m.sender with
       | none => Json.null
       | some c => Json.obj [("name", Json.str c.name), ("id", Json.str c.id)])]

/-- One field-step of `json.Unmarshal` into the exported fields of `Room`
(keys `id`, `name`, `private`).  State: the room decoded so far and the
error flag.  Go's decoder records a type error for an ill-typed value but
keeps decoding later keys, leaving the field at its previous value;
unknown keys are ignored; on duplicate keys the last well-typed value
wins. -/
def roomStep (s : Room × Bool) (kv : String × Json) : Room × Bool :=
  if kv.1 = "id" then
    match kv.2 with
    | Json.str x => ({ s.1 with id := x }, s.2)
    | _ => (s.1, true)
  else if kv.1 = "name" then
    match kv.2 with
    | Json.str x => ({ s.1 with name := x }, s.2)
    | _ => (s.1, true)
  else if kv.1 = "private" then
    match kv.2 with
    | Json.bool b => ({ s.1 with priv := b }, s.2)
    | _ => (s.1, true)
  else s

/-- `json.Unmarshal` of a JSON object into a freshly allocated `Room`
(the `Target *Room` field of the envelope): zero value, then the field
steps in wire order.  The decoded room's membership map is the Go nil
map, i.e. `[]`. -/
def roomUnmarshal (fs : List (String × Json)) : Room × Bool :=
  fs.foldl roomStep ({ id := "", name := "", priv := false, clients := [] }, false)

/-- One field-step of `json.Unmarshal` into the exported fields of
`Client` (keys `name`, `id`), with the same Go decoder conventions as
`roomStep`. -/
def clientStep (s : GClient × Bool) (kv : String × Json) : GClient × Bool :=
  if kv.1 = "name" then
    match kv.2 with
    | Json.str x => ({ s.1 with name := x }, s.2)
    | _ => (s.1, true)
  else if kv.1 = "id" then
    match kv.2 with
    | Json.str x => ({ s.1 with id := x }, s.2)
    | _ => (s.1, true)
  else s

/-- `json.Unmarshal` of a JSON object into the embedded `Sender Client`
value of the decoding wrapper struct in `Message.UnmarshalJSON`. -/
def clientUnmarshal (fs : List (String × Json)) : GClient × Bool :=
  fs.foldl clientStep ({ name := "", id := "" }, false)

/-- The in-progress state of `Message.UnmarshalJSON`'s inner
`json.Unmarshal(data, &msg)`: the `*Alias` fields (written directly into
the target `Message`) plus the wrapper's `Sender Client` value and the
saved error flag. -/
structure UState where
  action : String
  message : String
  target : Option Room
  senderC : GClient
  err : Bool
deriving DecidableEq

/-- One top-level field-step of the envelope decoder
(`Message.UnmarshalJSON`, message.go).  Keys `action` and `message`
expect strings; `target` expects null (nil `*Room`) or an object
(allocates a `Room`, nested type errors are saved and decoding
continues); `sender` expects null (no-op on the embedded `Client`
value) or an object; any other key is ignored. -/
def msgStep (u : UState) (kv : String × Json) : UState :=
  if kv.1 = "action" then
    match kv.2 with
    | Json.str s => { u with action := s }
    | _ => { u with err := true }
  else if kv.1 = "message" then
    match kv.2 with
    | Json.str s => { u with message := s }
    | _ => { u with err := true }
  else if kv.1 = "target" then
    match kv.2 with
    | Json.null => { u with target := none }
    | Json.obj tfs => { u with target := some (roomUnmarshal tfs).1,
                               err := u.err || (roomUnmarshal tfs).2 }
    | _ => { u with err := true }
  else if kv.1 = "sender" then
    match kv.2 with
    | Json.null => u
    | Json.obj sfs => { u with senderC := (clientUnmarshal sfs).1,
                               err := u.err || (clientUnmarshal sfs).2 }
    | _ => { u with err := true }
  else u

/-- The zero `UState`: a zero `Message` aliased by the wrapper plus a
zero embedded `Client`. -/
def initU : UState :=
  { action := "", message := "", target := none, senderC := { name := "", id := "" },
    err := false }

/-- `Message.UnmarshalJSON` (message.go) applied to a parsed JSON value:
runs the inner `json.Unmarshal` into the wrapper struct; on error it
returns early, so `message.Sender` keeps its zero value `nil` (`none`)
while the `*Alias` fields keep whatever was decoded before/around the
error; on success it sets `message.Sender = &msg.Sender` (always a
non-nil `*Client`, even if the wire sender was null or absent).
JSON `null` into a struct is a successful no-op for Go's decoder;
any other non-object document is a type error touching no field. -/
def messageUnmarshal (j : Json) : Message × Bool :=
  match j with
  | Json.null =>
      ({ action := "", message := "", target := none,
         sender := some { name := "", id := "" } }, false)
  | Json.obj fs =>
      let u := fs.foldl msgStep initU
      if u.err then
        ({ action := u.action, message := u.message, target := u.target,
           sender := none }, true)
      else
        ({ action := u.action, message := u.message, target := u.target,
           sender := some u.senderC }, false)
  | _ =>
      ({ action := "", message := "", target := none, sender := none }, true)

/-- The outbound buffered queues: client id → contents of that client's
`send` channel, oldest first (payloads are encoded wire values). -/
def Queues : Type := String → List Json

/-- `client.send <- payload`: append one payload to one client's
outbound queue. -/
def sendTo (q : Queues) (cid : String) (p : Json) : Queues :=
  fun x => if x = cid then q x ++ [p] else q x

/-- `welcomeMessage = "%s joined the room"` (room.go) applied by
`fmt.Sprintf` to the newcomer's name. -/
def welcomeMessage (name : String) : String := name ++ " joined the room"

/-- The system notice built by `Room.notifyClientJoined` (room.go):
`Message{Action: SendMessageAction, Target: room, Message:
fmt.Sprintf(welcomeMessage, client.GetName())}` — sender left nil. -/
def Room.joinedMessage (room : Room) (c : GClient) : Message :=
  { action := SendMessageAction, message := welcomeMessage c.name,
    target := some room, sender := none }

/-- `Room.broadcastToClientsInRoom` (room.go): `for client := range
room.clients { client.send <- message }`. -/
def Room.broadcastToClientsInRoom (room : Room) (payload : Json) (q : Queues) : Queues :=
  room.clients.foldl (fun acc cid => sendTo acc cid payload) q

/-- `Room.registerClientInRoom` (room.go): if the room is not private,
first `notifyClientJoined` (local fan-out of the joined notice to the
current members and one backplane publish on the room's name), then
`room.clients[client] = true`.  Returns the updated room, the updated
queues, and the list of backplane publishes `(topic, payload)`. -/
def Room.registerClientInRoom (room : Room) (c : GClient) (q : Queues) :
    Room × Queues × List (String × Json) :=
  let members' := if room.clients.contains c.id then room.clients
                  else room.clients ++ [c.id]
  if room.priv then
    ({ room with clients := members' }, q, [])
  else
    let payload := (room.joinedMessage c).encode
    ({ room with clients := members' },
     room.broadcastToClientsInRoom payload q,
     [(room.name, payload)])

/-- `Room.unregisterClientInRoom` (room.go): `if _, ok :=
room.clients[client]; ok { delete(room.clients, client) }`. -/
def Room.unregisterClientInRoom (room : Room) (cid : String) : Room :=
  if room.clients.contains cid then { room with clients := room.clients.erase cid }
  else room

/-- One request arriving at the room's loops: the three intakes of
`RunRoom`'s select (room.go) plus one payload received by the
concurrently running backplane subscription loop
(`subscribeToRoomMessages`). -/
inductive RoomCmd where
  | register : GClient → RoomCmd
  | unregister : String → RoomCmd
  | broadcast : Message → RoomCmd
  | deliver : Json → RoomCmd

/-- One iteration of the room's processing (room.go): `RunRoom`'s select
dispatches register/unregister/broadcast; the broadcast intake only
calls `publishRoomMessage(message.encode())`; a backplane delivery
(`subscribeToRoomMessages`) calls `broadcastToClientsInRoom` on the raw
payload.  Returns the room, the queues, and the backplane publishes. -/
def Room.step (room : Room) (cmd : RoomCmd) (q : Queues) :
    Room × Queues × List (String × Json) :=
  match cmd with
  | RoomCmd.register c => room.registerClientInRoom c q
  | RoomCmd.unregister cid => (room.unregisterClientInRoom cid, q, [])
  | RoomCmd.broadcast m => (room, q, [(room.name, m.encode)])
  | RoomCmd.deliver p => (room, room.broadcastToClientsInRoom p q, [])

/-- Modelled from the spec: the Registry Hub ("WsServer", §4.4) source
file is not among the provided files; per the spec it "holds the
authoritative set of active connections and active rooms known to this
process". -/
structure WsServer where
  clients : List GClient
  rooms : List Room

/-- Modelled from the spec: §4.4 `findRoomById` — "local lookup only…
returns not-found if absent on this process". -/
def findRoomById (s : WsServer) (rid : String) : Option Room :=
  s.rooms.find? (fun r => r.id == rid)

/-- Modelled from the spec: §4.4 `findRoomByName` — local lookup by the
process-wide-unique room name. -/
def findRoomByName (s : WsServer) (name : String) : Option Room :=
  s.rooms.find? (fun r => r.name == name)

/-- Modelled from the spec: §4.4 `findUserByID` — "local lookup among
connections currently attached to this process". -/
def findUserByID (s : WsServer) (uid : String) : Option GClient :=
  s.clients.find? (fun u => u.id == uid)

/-- Modelled from the spec: §4.4 `createRoom(name, private)`
"instantiates a Room, starts its run loop (registering it under both id
and name), and returns it"; the fresh uuid is supplied by the caller as
`freshId`. -/
def WsServer.createRoom (s : WsServer) (name : String) (priv : Bool) (freshId : String) :
    Room × WsServer :=
  let r : Room := { id := freshId, name := name, priv := priv, clients := [] }
  (r, { s with rooms := s.rooms ++ [r] })

/-- Modelled from the spec: §4.4 "`register`/`unregister` intakes
add/remove a connection from the process-wide set (idempotent)" — the
`wsServer.unregister <- client` target of `Client.disconnect`. -/
def WsServer.unregisterConnection (s : WsServer) (cid : String) : WsServer :=
  { s with clients := s.clients.filter (fun u => u.id != cid) }

/-- Modelled from the spec: §6 "A reserved general/system topic carries
private-room invite notifications" — the `PubSubGeneralChannel` constant
lives in the missing registry source file. -/
def PubSubGeneralChannel : String := "general"

/-- The process-wide observable state threaded through the connection
actor's handlers: the registry, each connection's `rooms` set
(`map[*Room]bool`, as room ids), the outbound queues, each connection's
`send`-channel closed flag, and the append-only log of backplane
publishes `(topic, payload)` issued so far. -/
structure ChatState where
  server : WsServer
  clientRooms : String → List String
  queues : Queues
  closed : String → Bool
  published : List (String × Json)

/-- Write a room's loop result back into the global state: replace the
room with the same identity, merge the queues, append the publishes. -/
def ChatState.applyRoomResult (st : ChatState) (rid : String)
    (res : Room × Queues × List (String × Json)) : ChatState :=
  { st with
      server := { st.server with
        rooms := st.server.rooms.map (fun r => if r.id == rid then res.1 else r) },
      queues := res.2.1,
      published := st.published ++ res.2.2 }

/-- `Client.isInRoom` (client.go): `if _, ok := client.rooms[room]; ok`. -/
def Client.isInRoom (st : ChatState) (c : GClient) (room : Room) : Bool :=
  (st.clientRooms c.id).contains room.id

/-- `Client.notifyRoomJoined` (client.go): enqueue to this connection's
own `send` queue the encoded `Message{Action: RoomJoinedAction, Target:
room, Sender: sender}`. -/
def Client.notifyRoomJoined (st : ChatState) (c : GClient) (room : Room)
    (sender : Option GClient) : ChatState :=
  let payload := Message.encode
    { action := RoomJoinedAction, message := "", target := some room, sender := sender }
  { st with queues := sendTo st.queues c.id payload }

/-- `Client.joinRoom` (client.go), the join helper shared by public and
private joins: find the room by name or lazily create it (private iff a
private-join `sender` is given); reject a public join of a private room
(`sender == nil && room.Private`) with no room and no side effect; if
not already a member, add to the connection's room set, signal the
room's register intake, and notify the connection of the joined room.
The register channel send is modelled as the room loop processing it
immediately. -/
def Client.joinRoom (st : ChatState) (c : GClient) (roomName : String)
    (sender : Option GClient) (freshId : String) : Option Room × ChatState :=
  let found := findRoomByName st.server roomName
  let room := match found with
    | some r => r
    | none => (st.server.createRoom roomName sender.isSome freshId).1
  let st1 := match found with
    | some _ => st
    | none => { st with server := (st.server.createRoom roomName sender.isSome freshId).2 }
  if sender.isNone && room.priv then
    (none, st1)
  else if Client.isInRoom st1 c room then
    (some room, st1)
  else
    let st2 := { st1 with clientRooms :=
      fun x => if x = c.id then room.id :: st1.clientRooms c.id else st1.clientRooms x }
    let res := room.registerClientInRoom c st2.queues
    let st3 := st2.applyRoomResult room.id res
    (some res.1, Client.notifyRoomJoined st3 c room sender)

/-- `Client.handleJoinRoomMessage` (client.go): public join by the name
carried in the `message` field. -/
def Client.handleJoinRoomMessage (st : ChatState) (c : GClient) (m : Message)
    (freshId : String) : ChatState :=
  (Client.joinRoom st c m.message none freshId).2

/-- `Client.handleLeaveRoomMessage` (client.go): resolve by
`findRoomById(message.Message)`; absent → return; delete from the
connection's room set if present; unconditionally signal the room's
unregister intake. -/
def Client.handleLeaveRoomMessage (st : ChatState) (c : GClient) (m : Message) : ChatState :=
  match findRoomById st.server m.message with
  | none => st
  | some room =>
    let st1 := { st with clientRooms :=
      fun x => if x = c.id then (st.clientRooms c.id).erase room.id
               else st.clientRooms x }
    { st1 with server := { st1.server with
        rooms := st1.server.rooms.map
          (fun r => if r.id == room.id then r.unregisterClientInRoom c.id else r) } }

/-- `Client.inviteTargetUser` (client.go): publish
`Message{Action: JoinRoomPrivateAction, Message: target.GetId(), Target:
room, Sender: client}` on the general pub/sub channel. -/
def Client.inviteTargetUser (st : ChatState) (c : GClient) (target : GClient)
    (room : Room) : ChatState :=
  { st with published := st.published ++
      [(PubSubGeneralChannel,
        Message.encode { action := JoinRoomPrivateAction, message := target.GetId,
                         target := some room, sender := some c })] }

/-- `Client.handleJoinRoomPrivateMessage` (client.go): resolve the
target user by id; absent → silently drop; derive the room name as
`message.Message + client.ID.String()` (target id concatenated with the
initiator's own id, in that order); join with the target as the
private-join sender; if a room was joined, send the invite over the
general channel. -/
def Client.handleJoinRoomPrivateMessage (st : ChatState) (c : GClient) (m : Message)
    (freshId : String) : ChatState :=
  match findUserByID st.server m.message with
  | none => st
  | some target =>
    let roomName := m.message ++ c.id
    let jr := Client.joinRoom st c roomName (some target) freshId
    match jr.1 with
    | none => jr.2
    | some room => Client.inviteTargetUser jr.2 c target room

/-- The sender stamping in `Client.handleNewMessage` (client.go):
whatever the wire carried, `message.Sender = client` overwrites the
sender with this connection's own identity before dispatch (the partial
decode result is kept even when unmarshalling reported an error, since
the handler only logs the error and falls through). -/
def Client.stamped (c : GClient) (j : Json) : Message :=
  { (messageUnmarshal j).1 with sender := some c }

/-- Outcome of processing one inbound frame: an updated state, or a
runtime panic (the `message.Target.GetId()` nil-pointer dereference when
a send-message frame has no target). -/
inductive HandleResult where
  | ok : ChatState → HandleResult
  | panicked : HandleResult
deriving Inhabited

/-- `Client.handleNewMessage` (client.go): unmarshal the frame (on error
only log — the code does not return), stamp the sender with this
connection's identity, then dispatch on the action: send-message resolves
the target room by id and submits to its broadcast intake (the room loop
immediately publishes the encoded message to the backplane); join/leave/
private-join are delegated; any other action is ignored. -/
def Client.handleNewMessage (st : ChatState) (c : GClient) (j : Json)
    (freshId : String) : HandleResult :=
  let m := Client.stamped c j
  if m.action = SendMessageAction then
    match m.target with
    | none => HandleResult.panicked
    | some t =>
      match findRoomById st.server t.id with
      | some room =>
          HandleResult.ok { st with published := st.published ++ [(room.name, m.encode)] }
      | none => HandleResult.ok st
  else if m.action = JoinRoomAction then
    HandleResult.ok (Client.handleJoinRoomMessage st c m freshId)
  else if m.action = LeaveRoomAction then
    HandleResult.ok (Client.handleLeaveRoomMessage st c m)
  else if m.action = JoinRoomPrivateAction then
    HandleResult.ok (Client.handleJoinRoomPrivateMessage st c m freshId)
  else
    HandleResult.ok st

/-- `Client.disconnect` (client.go): signal the registry's unregister
intake, signal the unregister intake of every room in the connection's
room set, close the outbound queue, close the socket. -/
def Client.disconnect (st : ChatState) (c : GClient) : ChatState :=
  let st1 := { st with server := st.server.unregisterConnection c.id }
  let st2 := { st1 with server := { st1.server with
      rooms := st1.server.rooms.map
        (fun (r : Room) => if (st.clientRooms c.id).contains r.id
                           then r.unregisterClientInRoom c.id else r) } }
  { st2 with closed := fun x => if x = c.id then true else st2.closed x }

/-! ## Helper lemmas about the queue fan-out -/

theorem foldl_sendTo_not_mem (p : Json) :
    ∀ (l : List String) (q : Queues) (x : String), x ∉ l →
      (l.foldl (fun acc cid => sendTo acc cid p) q) x = q x := by
  intro l
  induction l with
  | nil => intro q x _; rfl
  | cons a t ih =>
    intro q x hx
    simp only [List.mem_cons, not_or] at hx
    show (t.foldl (fun acc cid => sendTo acc cid p) (sendTo q a p)) x = q x
    rw [ih (sendTo q a p) x hx.2]
    simp [sendTo, hx.1]

theorem foldl_sendTo_mem (p : Json) :
    ∀ (l : List String) (q : Queues) (x : String), l.Nodup → x ∈ l →
      (l.foldl (fun acc cid => sendTo acc cid p) q) x = q x ++ [p] := by
  intro l
  induction l with
  | nil => intro q x _ hx; cases hx
  | cons a t ih =>
    intro q x hnd hx
    have hna : a ∉ t := (List.nodup_cons.mp hnd).1
    have hnt : t.Nodup := (List.nodup_cons.mp hnd).2
    show (t.foldl (fun acc cid => sendTo acc cid p) (sendTo q a p)) x = q x ++ [p]
    rcases List.mem_cons.mp hx with rfl | hxt
    · rw [foldl_sendTo_not_mem p t (sendTo q x p) x hna]
      simp [sendTo]
    · have hxa : x ≠ a := fun h => hna (h ▸ hxt)
      rw [ih (sendTo q a p) x hnt hxt]
      simp [sendTo, hxa]

theorem broadcast_not_mem (room : Room) (p : Json) (q : Queues) (x : String)
    (hx : x ∉ room.clients) : room.broadcastToClientsInRoom p q x = q x :=
  foldl_sendTo_not_mem p room.clients q x hx

theorem broadcast_mem (room : Room) (p : Json) (q : Queues) (x : String)
    (hnd : room.clients.Nodup) (hx : x ∈ room.clients) :
    room.broadcastToClientsInRoom p q x = q x ++ [p] :=
  foldl_sendTo_mem p room.clients q x hnd hx

/-! ## C3 — register order: joined notice before membership -/

/-- Claim C3: when a client registers with a public room, the room
broadcasts the system joined notice bearing the newcomer's name (one
local fan-out to the *prior* members and one backplane publish on the
room's topic) strictly before adding the client to its membership set,
so the newcomer's own queue is untouched; for a private room no notice
is broadcast on register. -/
theorem register_notifies_before_membership (room : Room) (c : GClient) (q : Queues)
    (hnd : room.clients.Nodup) (hnew : c.id ∉ room.clients) :
    ((room.registerClientInRoom c q).1.clients = room.clients ++ [c.id]) ∧
    ((room.registerClientInRoom c q).2.1 c.id = q c.id) ∧
    (room.priv = false →
      (∀ mid ∈ room.clients,
        (room.registerClientInRoom c q).2.1 mid
          = q mid ++ [(room.joinedMessage c).encode]) ∧
      (room.registerClientInRoom c q).2.2
        = [(room.name, (room.joinedMessage c).encode)]) ∧
    (room.priv = true →
      (room.registerClientInRoom c q).2.1 = q ∧
      (room.registerClientInRoom c q).2.2 = []) := by
  have hc : room.clients.contains c.id = false := by
    simp [List.contains, hnew]
  by_cases hp : room.priv
  · refine ⟨?_, ?_, ?_, ?_⟩
    · simp [Room.registerClientInRoom, hp, hc, hnew]
    · simp [Room.registerClientInRoom, hp]
    · intro h; rw [h] at hp; cases hp
    · intro _; simp [Room.registerClientInRoom, hp]
  · refine ⟨?_, ?_, ?_, ?_⟩
    · simp [Room.registerClientInRoom, hp, hc, hnew]
    · simp only [Room.registerClientInRoom, hc, if_neg hp]
      exact broadcast_not_mem room _ q c.id hnew
    · intro _
      constructor
      · intro mid hmid
        simp only [Room.registerClientInRoom, hc, if_neg hp]
        exact broadcast_mem room _ q mid hnd hmid
      · simp [Room.registerClientInRoom, hp]
    · intro h; rw [h] at hp; exact absurd rfl hp

/-- Witness for C3 at a concrete public room with one prior member. -/
theorem register_notifies_before_membership_witness :
    (({ id := "r1", name := "lobby", priv := false, clients := ["m1"] } : Room).clients.Nodup) ∧
    ((({ id := "r1", name := "lobby", priv := false, clients := ["m1"] } : Room).registerClientInRoom
        { name := "bob", id := "b1" } (fun _ => [])).2.1 "b1" = []) := by
  refine ⟨by decide, ?_⟩
  exact (register_notifies_before_membership
    { id := "r1", name := "lobby", priv := false, clients := ["m1"] }
    { name := "bob", id := "b1" } (fun _ => []) (by decide) (by decide)).2.1

/-! ## C4 — the broadcast intake only publishes; but the register path
also fans out locally -/

/-- Claim C4, counterexample to the strong "only path" clause: a
register command on a public room delivers the joined notice directly
into the existing member's outbound queue, without any backplane
delivery (`RoomCmd.deliver`) being processed. -/
theorem broadcast_only_path_counterexample :
    (Room.step { id := "r1", name := "lobby", priv := false, clients := ["m1"] }
        (RoomCmd.register { name := "bob", id := "b1" }) (fun _ => [])).2.1 "m1"
      = [(Room.joinedMessage { id := "r1", name := "lobby", priv := false, clients := ["m1"] }
            { name := "bob", id := "b1" }).encode] := rfl

/-- Claim C4 as amended: a message arriving on the room's broadcast
intake is only published to the backplane topic named after the room and
is never fanned out locally from that path; the backplane subscription
loop delivers a payload to exactly the currently registered members; the
unregister intake touches no queue.  (The register intake of a public
room additionally fans the joined notice out locally, which is why the
original "only path" clause fails.) -/
theorem broadcast_intake_publishes_only (room : Room) (q : Queues)
    (hnd : room.clients.Nodup) :
    (∀ m : Message,
       Room.step room (RoomCmd.broadcast m) q = (room, q, [(room.name, m.encode)])) ∧
    (∀ p x, x ∉ room.clients → (Room.step room (RoomCmd.deliver p) q).2.1 x = q x) ∧
    (∀ p x, x ∈ room.clients → (Room.step room (RoomCmd.deliver p) q).2.1 x = q x ++ [p]) ∧
    (∀ cid, (Room.step room (RoomCmd.unregister cid) q).2.1 = q) := by
  refine ⟨fun m => rfl, ?_, ?_, fun cid => rfl⟩
  · intro p x hx; exact broadcast_not_mem room p q x hx
  · intro p x hx; exact broadcast_mem room p q x hnd hx

/-- Witness for the amended C4 at a concrete room. -/
theorem broadcast_intake_publishes_only_witness :
    (Room.step { id := "r1", name := "lobby", priv := false, clients := ["m1"] }
        (RoomCmd.deliver (Json.str "payload")) (fun _ => [])).2.1 "m1"
      = [] ++ [Json.str "payload"] :=
  (broadcast_intake_publishes_only
    { id := "r1", name := "lobby", priv := false, clients := ["m1"] }
    (fun _ => []) (by decide)).2.2.1 (Json.str "payload") "m1" (by decide)

/-! ## C5 — a public join of an existing private room is rejected -/

/-- Claim C5: a public join request (join helper called with no
private-join sender) whose name resolves to an existing room marked
private returns no room and leaves the whole state — room set,
membership, queues — unchanged. -/
theorem public_join_of_private_room_rejected (st : ChatState) (c : GClient)
    (roomName freshId : String) (r : Room)
    (hfind : findRoomByName st.server roomName = some r) (hpriv : r.priv = true) :
    Client.joinRoom st c roomName none freshId = (none, st) := by
  simp [Client.joinRoom, hfind, hpriv]

/-- Witness for C5 at a concrete state holding one private room. -/
theorem public_join_of_private_room_rejected_witness :
    Client.joinRoom
      { server := { clients := [],
                    rooms := [{ id := "p1", name := "hideout", priv := true, clients := [] }] },
        clientRooms := fun _ => [], queues := fun _ => [], closed := fun _ => false,
        published := [] }
      { name := "alice", id := "a1" } "hideout" none "f1"
    = (none,
       { server := { clients := [],
                     rooms := [{ id := "p1", name := "hideout", priv := true, clients := [] }] },
         clientRooms := fun _ => [], queues := fun _ => [], closed := fun _ => false,
         published := [] }) :=
  public_join_of_private_room_rejected _ _ _ _
    { id := "p1", name := "hideout", priv := true, clients := [] } rfl rfl

/-! ## C10 — joining is idempotent at the connection actor -/

/-- Claim C10, counterexample: the idempotence claim as stated fails
when the second join request is a *public* join naming a private room
the connection is already a member of — the private-room guard fires
first and the helper returns no room instead of the room. -/
theorem join_idempotent_counterexample :
    (({ id := "p1", name := "b1a1", priv := true, clients := ["a1"] } : Room).id
       ∈ ((fun x => if x = "a1" then ["p1"] else []) : String → List String) "a1") ∧
    (Client.joinRoom
      { server := { clients := [],
                    rooms := [{ id := "p1", name := "b1a1", priv := true, clients := ["a1"] }] },
        clientRooms := fun x => if x = "a1" then ["p1"] else [],
        queues := fun _ => [], closed := fun _ => false, published := [] }
      { name := "alice", id := "a1" } "b1a1" none "f9").1 = none := by
  exact ⟨by decide, rfl⟩

/-- Claim C10 as amended: for a connection already a member of the room
resolved by name, a join request that passes the private-room guard
(i.e. a private join, or a public room) returns that same room and
changes nothing: no state change, hence no register signal to the room
and no second room-joined notification. -/
theorem join_idempotent (st : ChatState) (c : GClient) (roomName freshId : String)
    (sender : Option GClient) (r : Room)
    (hfind : findRoomByName st.server roomName = some r)
    (hmem : (st.clientRooms c.id).contains r.id = true)
    (hguard : sender.isSome = true ∨ r.priv = false) :
    Client.joinRoom st c roomName sender freshId = (some r, st) := by
  have hg : (sender.isNone && r.priv) = false := by
    rcases hguard with h | h
    · simp [Option.isNone, Option.isSome] at h ⊢
      rcases sender with _ | s
      · cases h
      · simp
    · simp [h]
  have hmem' : r.id ∈ st.clientRooms c.id := by
    simpa [List.contains] using hmem
  simp [Client.joinRoom, hfind, hg, Client.isInRoom, hmem, hmem']

/-- Witness for the amended C10: a second private-path join of a private
room the connection already belongs to is a no-op returning the room. -/
theorem join_idempotent_witness :
    Client.joinRoom
      { server := { clients := [{ name := "bob", id := "b1" }],
                    rooms := [{ id := "p1", name := "b1a1", priv := true, clients := ["a1"] }] },
        clientRooms := fun x => if x = "a1" then ["p1"] else [],
        queues := fun _ => [], closed := fun _ => false, published := [] }
      { name := "alice", id := "a1" } "b1a1" (some { name := "bob", id := "b1" }) "f9"
    = (some { id := "p1", name := "b1a1", priv := true, clients := ["a1"] },
       { server := { clients := [{ name := "bob", id := "b1" }],
                     rooms := [{ id := "p1", name := "b1a1", priv := true, clients := ["a1"] }] },
         clientRooms := fun x => if x = "a1" then ["p1"] else [],
         queues := fun _ => [], closed := fun _ => false, published := [] }) :=
  join_idempotent _ _ _ _ _ _ rfl rfl (Or.inl rfl)

/-! ## C1 — the private pairwise room name is not symmetric -/

/-- Claim C1 (code bug): the private room name is derived as
`message.Message + client.ID.String()` — the target's id concatenated
with the initiator's own id.  With connected users alice (`a1`) and bob
(`b1`), a private join initiated by alice resolves to a room named
`"b1a1"` while one initiated by bob resolves to `"a1b1"`; the two names
differ, so the two initiations do not converge on one room, contradicting
the claimed symmetry (which the spec itself flags as the intent). -/
theorem private_room_name_not_symmetric :
    ((Client.handleJoinRoomPrivateMessage
        { server := { clients := [{ name := "alice", id := "a1" },
                                  { name := "bob", id := "b1" }], rooms := [] },
          clientRooms := fun _ => [], queues := fun _ => [], closed := fun _ => false,
          published := [] }
        { name := "alice", id := "a1" }
        { action := JoinRoomPrivateAction, message := "b1", target := none, sender := none }
        "f1").server.rooms.map Room.name = ["b1a1"]) ∧
    ((Client.handleJoinRoomPrivateMessage
        { server := { clients := [{ name := "alice", id := "a1" },
                                  { name := "bob", id := "b1" }], rooms := [] },
          clientRooms := fun _ => [], queues := fun _ => [], closed := fun _ => false,
          published := [] }
        { name := "bob", id := "b1" }
        { action := JoinRoomPrivateAction, message := "a1", target := none, sender := none }
        "f2").server.rooms.map Room.name = ["a1b1"]) ∧
    ("b1a1" ≠ "a1b1") :=
  ⟨rfl, rfl, by decide⟩

/-! ## C6 — disconnect teardown -/

/-- Claim C6: disconnect teardown removes the connection from every room
it belongs to and from the process-wide registry, so that afterwards
querying the registry for its id yields not-found; it also closes the
connection's outbound queue.  The hypotheses state the joint-membership
invariant (every room containing the client is in the client's room set)
and the set-ness of the membership lists. -/
theorem disconnect_cleanup (st : ChatState) (c : GClient)
    (hnd : ∀ r ∈ st.server.rooms, r.clients.Nodup)
    (hcons : ∀ r ∈ st.server.rooms, c.id ∈ r.clients →
       (st.clientRooms c.id).contains r.id = true) :
    findUserByID (Client.disconnect st c).server c.id = none ∧
    (∀ r ∈ (Client.disconnect st c).server.rooms, c.id ∉ r.clients) ∧
    (Client.disconnect st c).closed c.id = true := by
  refine ⟨?_, ?_, ?_⟩
  · show (st.server.clients.filter (fun u => u.id != c.id)).find?
        (fun u => u.id == c.id) = none
    refine List.find?_eq_none.mpr ?_
    intro x hx
    rw [List.mem_filter] at hx
    simp only [bne_iff_ne, ne_eq] at hx
    simp [hx.2]
  · intro r' hr'
    have hmem : r' ∈ st.server.rooms.map
        (fun (r : Room) => if (st.clientRooms c.id).contains r.id
                           then r.unregisterClientInRoom c.id else r) := hr'
    obtain ⟨r, hr, rfl⟩ := List.mem_map.mp hmem
    by_cases hin : (st.clientRooms c.id).contains r.id
    · simp only [hin, if_true]
      by_cases hcr : r.clients.contains c.id
      · simp only [Room.unregisterClientInRoom, hcr, if_true]
        exact (hnd r hr).not_mem_erase
      · have hnm : c.id ∉ r.clients := by
          simpa [List.contains] using hcr
        have hcf : r.clients.contains c.id = false := by simpa using hcr
        simp only [Room.unregisterClientInRoom, hcf]
        simpa using hnm
    · simp only [hin, if_false]
      intro hm
      exact hin (hcons r hr hm)
  · simp [Client.disconnect]

/-- Witness for C6: a concrete state with one connection in one room. -/
theorem disconnect_cleanup_witness :
    findUserByID (Client.disconnect
      { server := { clients := [{ name := "alice", id := "a1" }],
                    rooms := [{ id := "r1", name := "lobby", priv := false, clients := ["a1"] }] },
        clientRooms := fun x => if x = "a1" then ["r1"] else [],
        queues := fun _ => [], closed := fun _ => false, published := [] }
      { name := "alice", id := "a1" }).server "a1" = none ∧
    (Client.disconnect
      { server := { clients := [{ name := "alice", id := "a1" }],
                    rooms := [{ id := "r1", name := "lobby", priv := false, clients := ["a1"] }] },
        clientRooms := fun x => if x = "a1" then ["r1"] else [],
        queues := fun _ => [], closed := fun _ => false, published := [] }
      { name := "alice", id := "a1" }).closed "a1" = true := by
  have h := disconnect_cleanup
    { server := { clients := [{ name := "alice", id := "a1" }],
                  rooms := [{ id := "r1", name := "lobby", priv := false, clients := ["a1"] }] },
      clientRooms := fun x => if x = "a1" then ["r1"] else [],
      queues := fun _ => [], closed := fun _ => false, published := [] }
    { name := "alice", id := "a1" }
    (by intro r hr; simp at hr; subst hr; decide)
    (by intro r hr hm; simp at hr; subst hr; decide)
  exact ⟨h.1, h.2.2⟩

/-! ## C8 — stale send-message target is silently dropped -/

/-- Claim C8: an inbound send-message frame whose target room id does not
resolve in the registry is silently dropped — the handler returns the
state unchanged (no broadcast submitted, no queue touched, no error sent,
connection alive). -/
theorem stale_send_message_dropped (st : ChatState) (c : GClient) (j : Json)
    (freshId : String) (t : Room)
    (ha : (messageUnmarshal j).1.action = SendMessageAction)
    (ht : (messageUnmarshal j).1.target = some t)
    (hfind : findRoomById st.server t.id = none) :
    Client.handleNewMessage st c j freshId = HandleResult.ok st := by
  simp [Client.handleNewMessage, Client.stamped, ha, ht, hfind]

/-- Witness for C8: a well-formed send-message frame naming a room id
unknown to an empty registry. -/
theorem stale_send_message_dropped_witness :
    Client.handleNewMessage
      { server := { clients := [], rooms := [] }, clientRooms := fun _ => [],
        queues := fun _ => [], closed := fun _ => false, published := [] }
      { name := "alice", id := "a1" }
      (Json.obj [("action", Json.str "send-message"),
                 ("message", Json.str "hi"),
                 ("target", Json.obj [("id", Json.str "ghost")]),
                 ("sender", Json.obj [("id", Json.str "a1"), ("name", Json.str "alice")])])
      "f1"
    = HandleResult.ok
        { server := { clients := [], rooms := [] }, clientRooms := fun _ => [],
          queues := fun _ => [], closed := fun _ => false, published := [] } :=
  stale_send_message_dropped _ _ _ _
    { id := "ghost", name := "", priv := false, clients := [] } rfl rfl rfl

/-! ## C9 — a malformed envelope is logged but NOT dropped -/

/-- Claim C9 (code bug): `handleNewMessage` logs a failed unmarshal but
does not return, so a frame whose envelope is malformed (here: `sender`
is a number, a decode type error) is still dispatched using the
partially decoded fields — the send-message action resolves the target
room and submits the message to its broadcast intake, which publishes it
to the backplane.  The claim (decode error ⇒ frame dropped, nothing
dispatched) is the spec's stated intent; the missing early return is the
slip. -/
theorem malformed_frame_still_dispatched :
    ((messageUnmarshal
        (Json.obj [("action", Json.str "send-message"),
                   ("target", Json.obj [("id", Json.str "r1")]),
                   ("sender", Json.num 5)])).2 = true) ∧
    (Client.handleNewMessage
      { server := { clients := [],
                    rooms := [{ id := "r1", name := "lobby", priv := false, clients := [] }] },
        clientRooms := fun _ => [], queues := fun _ => [], closed := fun _ => false,
        published := [] }
      { name := "mallory", id := "c9" }
      (Json.obj [("action", Json.str "send-message"),
                 ("target", Json.obj [("id", Json.str "r1")]),
                 ("sender", Json.num 5)])
      "f1"
     = HandleResult.ok
        { server := { clients := [],
                      rooms := [{ id := "r1", name := "lobby", priv := false, clients := [] }] },
          clientRooms := fun _ => [], queues := fun _ => [], closed := fun _ => false,
          published := [("lobby",
            (Client.stamped { name := "mallory", id := "c9" }
              (Json.obj [("action", Json.str "send-message"),
                         ("target", Json.obj [("id", Json.str "r1")]),
                         ("sender", Json.num 5)])).encode)] }) :=
  ⟨rfl, rfl⟩

/-! ## C2 — the server is authoritative for the sender -/

/-- Replace the value of every `sender` field of a top-level JSON object
with null, leaving everything else (including field order) intact.  Two
frames are "identical except for the wire sender field" exactly when
their masks are equal. -/
def maskKV (kv : String × Json) : String × Json :=
  if kv.1 = "sender" then (kv.1, Json.null) else kv

/-- Mask of a whole frame: object fields are masked, any other document
is left as is. -/
def maskSender : Json → Json
  | Json.obj fs => Json.obj (fs.map maskKV)
  | j => j

/-- Agreement of two decoder states on everything except the decoded
wire sender and the error flag — the only components the sender field
can influence. -/
def NonSenderAgree (u v : UState) : Prop :=
  u.action = v.action ∧ u.message = v.message ∧ u.target = v.target

theorem maskKV_fst (kv : String × Json) : (maskKV kv).1 = kv.1 := by
  unfold maskKV
  split_ifs <;> rfl

theorem msgStep_sender_agree (u : UState) (x : Json) :
    NonSenderAgree (msgStep u ("sender", x)) u := by
  cases x <;> simp [msgStep, NonSenderAgree]

theorem msgStep_congr (u v : UState) (kv : String × Json)
    (h : NonSenderAgree u v) : NonSenderAgree (msgStep u kv) (msgStep v kv) := by
  obtain ⟨h1, h2, h3⟩ := h
  rcases kv with ⟨k, x⟩
  unfold msgStep NonSenderAgree
  split_ifs <;> cases x <;> simp_all

theorem foldl_mask_congr :
    ∀ (fs1 fs2 : List (String × Json)) (u v : UState),
      fs1.map maskKV = fs2.map maskKV → NonSenderAgree u v →
      NonSenderAgree (fs1.foldl msgStep u) (fs2.foldl msgStep v) := by
  intro fs1
  induction fs1 with
  | nil =>
    intro fs2 u v hm huv
    cases fs2 with
    | nil => exact huv
    | cons b t => simp at hm
  | cons a t1 ih =>
    intro fs2 u v hm huv
    cases fs2 with
    | nil => simp at hm
    | cons b t2 =>
      simp only [List.map_cons, List.cons.injEq] at hm
      obtain ⟨hh, htails⟩ := hm
      show NonSenderAgree (t1.foldl msgStep (msgStep u a)) (t2.foldl msgStep (msgStep v b))
      refine ih t2 (msgStep u a) (msgStep v b) htails ?_
      by_cases hka : a.1 = "sender"
      · have hkb : b.1 = "sender" := by
          rw [← maskKV_fst b, ← hh, maskKV_fst]
          exact hka
        have ha : NonSenderAgree (msgStep u (a.1, a.2)) u := hka ▸ msgStep_sender_agree u a.2
        have hb : NonSenderAgree (msgStep v (b.1, b.2)) v := hkb ▸ msgStep_sender_agree v b.2
        obtain ⟨a1, a2, a3⟩ := ha
        obtain ⟨b1, b2, b3⟩ := hb
        obtain ⟨u1, u2, u3⟩ := huv
        exact ⟨by rw [a1, u1, ← b1], by rw [a2, u2, ← b2], by rw [a3, u3, ← b3]⟩
      · have hab : a = b := by
          have hkb : ¬ b.1 = "sender" := fun hb =>
            hka (by rw [← maskKV_fst a, hh, maskKV_fst]; exact hb)
          simpa [maskKV, hka, hkb] using hh
        rw [← hab]
        exact msgStep_congr u v a huv

theorem stamped_obj (c : GClient) (fs : List (String × Json)) :
    Client.stamped c (Json.obj fs) =
      { action := (fs.foldl msgStep initU).action,
        message := (fs.foldl msgStep initU).message,
        target := (fs.foldl msgStep initU).target,
        sender := some c } := by
  unfold Client.stamped messageUnmarshal
  dsimp only
  split <;> rfl

theorem stamped_congr (c : GClient) (j1 j2 : Json)
    (h : maskSender j1 = maskSender j2) :
    Client.stamped c j1 = Client.stamped c j2 := by
  cases j1 <;> cases j2 <;> simp_all [maskSender]
  case obj.obj fs1 fs2 =>
    rw [stamped_obj, stamped_obj]
    obtain ⟨e1, e2, e3⟩ := foldl_mask_congr fs1 fs2 initU initU h ⟨rfl, rfl, rfl⟩
    rw [e1, e2, e3]

/-- Claim C2: the dispatched message's sender is always the receiving
connection's own identity (the wire sender is overwritten), and any two
inbound frames that differ only in their wire `sender` field (equal
masks) produce identical handler outcomes — the same dispatched message,
state, queues and publishes. -/
theorem sender_overwritten_noninterference (st : ChatState) (c : GClient)
    (j1 j2 : Json) (freshId : String) (h : maskSender j1 = maskSender j2) :
    Client.handleNewMessage st c j1 freshId = Client.handleNewMessage st c j2 freshId ∧
    (Client.stamped c j1).sender = some c := by
  refine ⟨?_, rfl⟩
  unfold Client.handleNewMessage
  rw [stamped_congr c j1 j2 h]

/-- Witness for C2: two frames equal except for the claimed wire sender
(an impersonation attempt vs a null sender) yield identical outcomes. -/
theorem sender_overwritten_noninterference_witness :
    Client.handleNewMessage
      { server := { clients := [], rooms := [] }, clientRooms := fun _ => [],
        queues := fun _ => [], closed := fun _ => false, published := [] }
      { name := "alice", id := "a1" }
      (Json.obj [("action", Json.str "noop"),
                 ("sender", Json.obj [("id", Json.str "evil"), ("name", Json.str "mallory")])])
      "f1"
    = Client.handleNewMessage
      { server := { clients := [], rooms := [] }, clientRooms := fun _ => [],
        queues := fun _ => [], closed := fun _ => false, published := [] }
      { name := "alice", id := "a1" }
      (Json.obj [("action", Json.str "noop"), ("sender", Json.null)])
      "f1" :=
  (sender_overwritten_noninterference _ { name := "alice", id := "a1" } _ _ "f1" rfl).1

/-! ## C7 — codec round-trip up to JSON key ordering -/

theorem bool_or_swap (a b c : Bool) : ((a || b) || c) = ((a || c) || b) := by
  cases a <;> cases b <;> cases c <;> rfl

theorem msgStep_action_str (u : UState) (s : String) :
    msgStep u ("action", Json.str s) = { u with action := s } := rfl

theorem msgStep_message_str (u : UState) (s : String) :
    msgStep u ("message", Json.str s) = { u with message := s } := rfl

theorem msgStep_target_obj (u : UState) (tfs : List (String × Json)) :
    msgStep u ("target", Json.obj tfs)
      = { u with target := some (roomUnmarshal tfs).1,
                 err := u.err || (roomUnmarshal tfs).2 } := rfl

theorem msgStep_sender_obj (u : UState) (sfs : List (String × Json)) :
    msgStep u ("sender", Json.obj sfs)
      = { u with senderC := (clientUnmarshal sfs).1,
                 err := u.err || (clientUnmarshal sfs).2 } := rfl

theorem msgStep_ts_comm (z : UState) (tfs sfs : List (String × Json)) :
    msgStep (msgStep z ("target", Json.obj tfs)) ("sender", Json.obj sfs)
      = msgStep (msgStep z ("sender", Json.obj sfs)) ("target", Json.obj tfs) := by
  show ({ z with target := some (roomUnmarshal tfs).1,
                 senderC := (clientUnmarshal sfs).1,
                 err := (z.err || (roomUnmarshal tfs).2) || (clientUnmarshal sfs).2 } : UState)
      = { z with target := some (roomUnmarshal tfs).1,
                 senderC := (clientUnmarshal sfs).1,
                 err := (z.err || (clientUnmarshal sfs).2) || (roomUnmarshal tfs).2 }
  rw [bool_or_swap z.err (roomUnmarshal tfs).2 (clientUnmarshal sfs).2]

theorem roomUnmarshal_perm (tid tname : String) (tpriv : Bool)
    (tfs : List (String × Json))
    (ht : tfs.Perm [("id", Json.str tid), ("name", Json.str tname),
                    ("private", Json.bool tpriv)]) :
    roomUnmarshal tfs
      = ({ id := tid, name := tname, priv := tpriv, clients := [] }, false) := by
  have hcomm : ∀ x ∈ [("id", Json.str tid), ("name", Json.str tname),
                      ("private", Json.bool tpriv)],
      ∀ y ∈ [("id", Json.str tid), ("name", Json.str tname),
             ("private", Json.bool tpriv)],
      ∀ z, roomStep (roomStep z x) y = roomStep (roomStep z y) x := by
    intro x hx y hy z
    simp only [List.mem_cons, List.not_mem_nil, or_false] at hx hy
    rcases hx with rfl | rfl | rfl <;> rcases hy with rfl | rfl | rfl <;> rfl
  unfold roomUnmarshal
  rw [← List.Perm.foldl_eq' ht.symm hcomm]
  rfl

theorem clientUnmarshal_perm (sid sname : String) (sfs : List (String × Json))
    (hs : sfs.Perm [("id", Json.str sid), ("name", Json.str sname)]) :
    clientUnmarshal sfs = ({ name := sname, id := sid }, false) := by
  have hcomm : ∀ x ∈ [("id", Json.str sid), ("name", Json.str sname)],
      ∀ y ∈ [("id", Json.str sid), ("name", Json.str sname)],
      ∀ z, clientStep (clientStep z x) y = clientStep (clientStep z y) x := by
    intro x hx y hy z
    simp only [List.mem_cons, List.not_mem_nil, or_false] at hx hy
    rcases hx with rfl | rfl <;> rcases hy with rfl | rfl <;> rfl
  unfold clientUnmarshal
  rw [← List.Perm.foldl_eq' hs.symm hcomm]
  rfl

theorem messageUnmarshal_obj (fs : List (String × Json)) :
    messageUnmarshal (Json.obj fs)
      = (if (fs.foldl msgStep initU).err then
           ({ action := (fs.foldl msgStep initU).action,
              message := (fs.foldl msgStep initU).message,
              target := (fs.foldl msgStep initU).target,
              sender := none }, true)
         else
           ({ action := (fs.foldl msgStep initU).action,
              message := (fs.foldl msgStep initU).message,
              target := (fs.foldl msgStep initU).target,
              sender := some (fs.foldl msgStep initU).senderC }, false)) := rfl

theorem messageUnmarshal_perm (a m tid tname sid sname : String) (tpriv : Bool)
    (fs tfs sfs : List (String × Json))
    (ht : tfs.Perm [("id", Json.str tid), ("name", Json.str tname),
                    ("private", Json.bool tpriv)])
    (hs : sfs.Perm [("id", Json.str sid), ("name", Json.str sname)])
    (hf : fs.Perm [("action", Json.str a), ("message", Json.str m),
                   ("target", Json.obj tfs), ("sender", Json.obj sfs)]) :
    messageUnmarshal (Json.obj fs)
      = ({ action := a, message := m,
           target := some { id := tid, name := tname, priv := tpriv, clients := [] },
           sender := some { name := sname, id := sid } }, false) := by
  have hcomm : ∀ x ∈ [("action", Json.str a), ("message", Json.str m),
                      ("target", Json.obj tfs), ("sender", Json.obj sfs)],
      ∀ y ∈ [("action", Json.str a), ("message", Json.str m),
             ("target", Json.obj tfs), ("sender", Json.obj sfs)],
      ∀ z, msgStep (msgStep z x) y = msgStep (msgStep z y) x := by
    intro x hx y hy z
    simp only [List.mem_cons, List.not_mem_nil, or_false] at hx hy
    rcases hx with rfl | rfl | rfl | rfl <;> rcases hy with rfl | rfl | rfl | rfl <;>
      first
        | rfl
        | exact msgStep_ts_comm z tfs sfs
        | exact (msgStep_ts_comm z tfs sfs).symm
  have hkey : fs.foldl msgStep initU
      = { action := a, message := m,
          target := some { id := tid, name := tname, priv := tpriv, clients := [] },
          senderC := { name := sname, id := sid }, err := false } := by
    rw [← List.Perm.foldl_eq' hf.symm hcomm]
    simp only [List.foldl_cons, List.foldl_nil, msgStep_action_str, msgStep_message_str,
      msgStep_target_obj, msgStep_sender_obj,
      roomUnmarshal_perm tid tname tpriv tfs ht, clientUnmarshal_perm sid sname sfs hs]
    rfl
  rw [messageUnmarshal_obj, hkey]
  rfl

mutual

/-- Equality of JSON documents up to reordering of object fields, at
every nesting level: object fields may be pointwise rewritten to
equivalent values (same keys, in place) and then permuted. -/
inductive KeyPermEquiv : Json → Json → Prop where
  | null : KeyPermEquiv Json.null Json.null
  | bool : ∀ b, KeyPermEquiv (Json.bool b) (Json.bool b)
  | num : ∀ n, KeyPermEquiv (Json.num n) (Json.num n)
  | str : ∀ s, KeyPermEquiv (Json.str s) (Json.str s)
  | arr : ∀ xs, KeyPermEquiv (Json.arr xs) (Json.arr xs)
  | obj : ∀ (fs hs gs : List (String × Json)),
      FieldsEquiv fs hs → hs.Perm gs → KeyPermEquiv (Json.obj fs) (Json.obj gs)

inductive FieldsEquiv : List (String × Json) → List (String × Json) → Prop where
  | nil : FieldsEquiv [] []
  | cons : ∀ (k : String) (v w : Json) (fs hs : List (String × Json)),
      KeyPermEquiv v w → FieldsEquiv fs hs →
      FieldsEquiv ((k, v) :: fs) ((k, w) :: hs)

end

/-- Values that are not objects or arrays (the leaves appearing in a
well-formed envelope's nested fields). -/
def LeafVal : Json → Prop
  | Json.obj _ => False
  | Json.arr _ => False
  | _ => True

theorem keyPermEquiv_refl_leaf (j : Json) (h : LeafVal j) : KeyPermEquiv j j := by
  cases j with
  | null => exact KeyPermEquiv.null
  | bool b => exact KeyPermEquiv.bool b
  | num n => exact KeyPermEquiv.num n
  | str s => exact KeyPermEquiv.str s
  | arr xs => exact h.elim
  | obj fs => exact h.elim

theorem fieldsEquiv_self (canon : List (String × Json))
    (hleaf : ∀ x ∈ canon, LeafVal x.2) :
    ∀ l : List (String × Json), (∀ x ∈ l, x ∈ canon) → FieldsEquiv l l := by
  intro l
  induction l with
  | nil => intro _; exact FieldsEquiv.nil
  | cons x t ih =>
    intro h
    have hx := h x (List.mem_cons_self x t)
    rcases x with ⟨k, v⟩
    exact FieldsEquiv.cons k v v t t
      (keyPermEquiv_refl_leaf v (hleaf _ hx))
      (ih fun y hy => h y (List.mem_cons_of_mem _ hy))

theorem fieldsEquiv_map (g : String × Json → String × Json) :
    ∀ l : List (String × Json),
      (∀ x ∈ l, (g x).1 = x.1 ∧ KeyPermEquiv x.2 (g x).2) →
      FieldsEquiv l (l.map g) := by
  intro l
  induction l with
  | nil => intro _; exact FieldsEquiv.nil
  | cons x t ih =>
    intro h
    have hx := h x (List.mem_cons_self x t)
    rcases x with ⟨k, v⟩
    show FieldsEquiv ((k, v) :: t) (g (k, v) :: t.map g)
    rcases hgv : g (k, v) with ⟨k', w⟩
    rw [hgv] at hx
    have hk : k' = k := by simpa using hx.1
    subst hk
    exact FieldsEquiv.cons k' v w t (t.map g) hx.2
      (ih fun y hy => h y (List.mem_cons_of_mem _ hy))

/-- The canonical rewriting of a well-formed envelope's fields into the
shape `Message.encode` emits: the target and sender objects in encoder
field order, everything else untouched. -/
def canonizeKV (tid tname : String) (tpriv : Bool) (sid sname : String)
    (kv : String × Json) : String × Json :=
  if kv.1 = "target" then
    ("target", Json.obj [("id", Json.str tid), ("name", Json.str tname),
                         ("private", Json.bool tpriv)])
  else if kv.1 = "sender" then
    ("sender", Json.obj [("name", Json.str sname), ("id", Json.str sid)])
  else kv

/-- Claim C7: for a well-formed wire envelope — a JSON object whose
fields are, in any order, a string `action`, a string `message`, a
`target` object carrying `id`/`name`/`private` (in any order), and a
`sender` object carrying exactly `id`/`name` (in any order) — decoding
succeeds, the decoded sender exposes both the id and the name accessors,
and re-encoding the decoded message reproduces the original document up
to JSON key ordering (`KeyPermEquiv`). -/
theorem envelope_roundtrip (a m tid tname sid sname : String) (tpriv : Bool)
    (fs tfs sfs : List (String × Json))
    (ht : tfs.Perm [("id", Json.str tid), ("name", Json.str tname),
                    ("private", Json.bool tpriv)])
    (hs : sfs.Perm [("id", Json.str sid), ("name", Json.str sname)])
    (hf : fs.Perm [("action", Json.str a), ("message", Json.str m),
                   ("target", Json.obj tfs), ("sender", Json.obj sfs)]) :
    ((messageUnmarshal (Json.obj fs)).2 = false) ∧
    ((messageUnmarshal (Json.obj fs)).1.sender.map GClient.GetId = some sid) ∧
    ((messageUnmarshal (Json.obj fs)).1.sender.map GClient.GetName = some sname) ∧
    (Message.encode (messageUnmarshal (Json.obj fs)).1
      = Json.obj [("action", Json.str a), ("message", Json.str m),
                  ("target", Json.obj [("id", Json.str tid), ("name", Json.str tname),
                                       ("private", Json.bool tpriv)]),
                  ("sender", Json.obj [("name", Json.str sname), ("id", Json.str sid)])]) ∧
    KeyPermEquiv (Json.obj fs) (Message.encode (messageUnmarshal (Json.obj fs)).1) := by
  have hdec := messageUnmarshal_perm a m tid tname sid sname tpriv fs tfs sfs ht hs hf
  rw [hdec]
  refine ⟨rfl, rfl, rfl, rfl, ?_⟩
  have hFE : FieldsEquiv fs (fs.map (canonizeKV tid tname tpriv sid sname)) := by
    refine fieldsEquiv_map (canonizeKV tid tname tpriv sid sname) fs ?_
    intro x hx
    have hx4 := hf.mem_iff.mp hx
    simp only [List.mem_cons, List.not_mem_nil, or_false] at hx4
    rcases hx4 with rfl | rfl | rfl | rfl
    · exact ⟨rfl, KeyPermEquiv.str a⟩
    · exact ⟨rfl, KeyPermEquiv.str m⟩
    · refine ⟨rfl, KeyPermEquiv.obj tfs tfs _ ?_ ht⟩
      refine fieldsEquiv_self _ ?_ tfs (fun y hy => ht.mem_iff.mp hy)
      intro y hy
      simp only [List.mem_cons, List.not_mem_nil, or_false] at hy
      rcases hy with rfl | rfl | rfl <;> trivial
    · refine ⟨rfl, KeyPermEquiv.obj sfs sfs _ ?_ ?_⟩
      · refine fieldsEquiv_self _ ?_ sfs (fun y hy => hs.mem_iff.mp hy)
        intro y hy
        simp only [List.mem_cons, List.not_mem_nil, or_false] at hy
        rcases hy with rfl | rfl <;> trivial
      · exact hs.trans
          (List.Perm.swap ("name", Json.str sname) ("id", Json.str sid) [])
  have hPerm : (fs.map (canonizeKV tid tname tpriv sid sname)).Perm
      [("action", Json.str a), ("message", Json.str m),
       ("target", Json.obj [("id", Json.str tid), ("name", Json.str tname),
                            ("private", Json.bool tpriv)]),
       ("sender", Json.obj [("name", Json.str sname), ("id", Json.str sid)])] :=
    hf.map (canonizeKV tid tname tpriv sid sname)
  exact KeyPermEquiv.obj fs (fs.map (canonizeKV tid tname tpriv sid sname)) _ hFE hPerm

/-- Witness for C7: a concrete envelope whose top-level fields and both
nested objects are each out of the encoder's order by one swap. -/
theorem envelope_roundtrip_witness :
    ((messageUnmarshal (Json.obj
        [("message", Json.str "hi"),
         ("action", Json.str "send-message"),
         ("target", Json.obj [("name", Json.str "lobby"), ("id", Json.str "r1"),
                              ("private", Json.bool false)]),
         ("sender", Json.obj [("name", Json.str "alice"), ("id", Json.str "a1")])])).2
       = false) ∧
    (Message.encode (messageUnmarshal (Json.obj
        [("message", Json.str "hi"),
         ("action", Json.str "send-message"),
         ("target", Json.obj [("name", Json.str "lobby"), ("id", Json.str "r1"),
                              ("private", Json.bool false)]),
         ("sender", Json.obj [("name", Json.str "alice"), ("id", Json.str "a1")])])).1
      = Json.obj [("action", Json.str "send-message"), ("message", Json.str "hi"),
                  ("target", Json.obj [("id", Json.str "r1"), ("name", Json.str "lobby"),
                                       ("private", Json.bool false)]),
                  ("sender", Json.obj [("name", Json.str "alice"),
                                       ("id", Json.str "a1")])]) := by
  have h := envelope_roundtrip "send-message" "hi" "r1" "lobby" "a1" "alice" false
    [("message", Json.str "hi"),
     ("action", Json.str "send-message"),
     ("target", Json.obj [("name", Json.str "lobby"), ("id", Json.str "r1"),
                          ("private", Json.bool false)]),
     ("sender", Json.obj [("name", Json.str "alice"), ("id", Json.str "a1")])]
    [("name", Json.str "lobby"), ("id", Json.str "r1"), ("private", Json.bool false)]
    [("name", Json.str "alice"), ("id", Json.str "a1")]
    (List.Perm.swap ("id", Json.str "r1") ("name", Json.str "lobby")
      [("private", Json.bool false)])
    (List.Perm.swap ("id", Json.str "a1") ("name", Json.str "alice") [])
    (List.Perm.swap ("action", Json.str "send-message") ("message", Json.str "hi")
      [("target", Json.obj [("name", Json.str "lobby"), ("id", Json.str "r1"),
                            ("private", Json.bool false)]),
       ("sender", Json.obj [("name", Json.str "alice"), ("id", Json.str "a1")])])
  exact ⟨h.1, h.2.2.2.1⟩

end GoChat
